import Mathlib

/-!
Verification development for the `days-in-office` program (`main.go`).

The program scans Google location-history JSON exports, normalizes two
schema variants into a list of visited-place records, filters them by a
time range, measures the haversine distance to a reference point, and
collects the matching visit-start days into a map of calendar days.

Modelling conventions used throughout this file:

* Go `float64` values coming from text or E7-integer parsing are modelled
  as exact rationals (`ℚ`); the geographic distance computation, which is
  genuinely real-valued (trigonometry), is modelled over `ℝ`.
* Go `time.Time` is modelled as `GoTime`: the absolute instant in Unix
  seconds together with the zone offset the value carries (as decoded
  from an RFC3339 string).  `Before`/`After` compare the absolute
  instant; formatting and weekday use the wall clock `unix + offset`,
  exactly as in Go.
* A Go `map[string]bool` is modelled as an association list with
  overwrite-on-insert (`mapSet`); all maps in the program start empty, so
  keys stay distinct.
* A Go runtime panic (out-of-range slice index in `parsePoint`) is
  modelled by `Option`: `none` means the function does not return.
-/

/-! ## Calendar arithmetic

Civil-calendar conversions (proleptic Gregorian), the algorithms used by
every date library; days are counted from the Unix epoch 1970-01-01. -/

/-- Convert a count of days since 1970-01-01 to a civil date
`(year, month, day)` (proleptic Gregorian calendar). -/
def civilFromDays (z0 : Int) : Int × Int × Int :=
  let z := z0 + 719468
  let era := Int.fdiv z 146097
  let doe := z - era * 146097
  let yoe := Int.fdiv (doe - Int.fdiv doe 1460 + Int.fdiv doe 36524 - Int.fdiv doe 146096) 365
  let y := yoe + era * 400
  let doy := doe - (365 * yoe + Int.fdiv yoe 4 - Int.fdiv yoe 100)
  let mp := Int.fdiv (5 * doy + 2) 153
  let d := doy - Int.fdiv (153 * mp + 2) 5 + 1
  let m := if mp < 10 then mp + 3 else mp - 9
  (if m ≤ 2 then y + 1 else y, m, d)

/-- Convert a civil date `(year, month, day)` to a count of days since
1970-01-01 (inverse of `civilFromDays`). -/
def daysFromCivil (y0 m d : Int) : Int :=
  let y := if m ≤ 2 then y0 - 1 else y0
  let era := Int.fdiv y 400
  let yoe := y - era * 400
  let mp := if 2 < m then m - 3 else m + 9
  let doy := Int.fdiv (153 * mp + 2) 5 + d - 1
  let doe := yoe * 365 + Int.fdiv yoe 4 - Int.fdiv yoe 100 + doy
  era * 146097 + doe - 719468

/-- Decimal digits of a natural number, most significant first (the first
argument is fuel, instantiated with the number itself). -/
def natDigitsAux : ℕ → ℕ → List Char
  | 0, _ => []
  | fuel + 1, n => if n = 0 then [] else natDigitsAux fuel (n / 10) ++ [Char.ofNat (48 + n % 10)]

/-- Decimal string of a natural number. -/
def natToString (n : ℕ) : String :=
  if n = 0 then "0" else String.mk (natDigitsAux n n)

/-- Left-pad a string with `'0'` up to the given width. -/
def padZeros (width : ℕ) (s : String) : String :=
  String.mk (List.replicate (width - s.length) '0') ++ s

/-- Format a wall-clock reading (seconds) as `YYYY-MM-DD`, the result of
Go's `t.Format("2006-01-02")` for common-era dates. -/
def formatGoDate (wall : Int) : String :=
  let c := civilFromDays (Int.fdiv wall 86400)
  padZeros 4 (natToString c.1.toNat) ++ "-" ++
    padZeros 2 (natToString c.2.1.toNat) ++ "-" ++ padZeros 2 (natToString c.2.2.toNat)

/-- Weekday of a wall-clock reading, with Go's numbering
(`0` = Sunday, …, `6` = Saturday); 1970-01-01 was a Thursday (`4`). -/
def goWeekday (wall : Int) : Int :=
  Int.fmod (Int.fdiv wall 86400 + 4) 7

/-- Go's `t.Weekday() != time.Saturday && t.Weekday() != time.Sunday`
for a wall-clock reading. -/
def isWorkingWall (wall : Int) : Bool :=
  !(goWeekday wall == 6) && !(goWeekday wall == 0)

/-! ## Go time values -/

/-- Model of a Go `time.Time` as decoded from an RFC3339 string: the
absolute instant in Unix seconds and the zone offset (seconds east of
UTC) that the value carries. -/
structure GoTime where
  unix : Int
  offset : Int
deriving DecidableEq

/-- Go's `t.Before(u)`: strict comparison of absolute instants. -/
def GoTime.Before (t u : GoTime) : Bool := decide (t.unix < u.unix)

/-- Go's `t.After(u)`: strict comparison of absolute instants. -/
def GoTime.After (t u : GoTime) : Bool := decide (u.unix < t.unix)

/-- The Go zero `time.Time`, 0001-01-01T00:00:00 UTC. -/
def goZeroTime : GoTime := ⟨daysFromCivil 1 1 1 * 86400, 0⟩

/-- A UTC midnight timestamp for a civil date (used for concrete test
dates in the theorems below). -/
def utcDate (y m d : Int) : GoTime := ⟨daysFromCivil y m d * 86400, 0⟩

/-! ## The day map (`dayMap` in `main.go`)

`type dayMap map[string]bool` maps a formatted date to a working-day
flag.  The Go map is modelled as an association list with
overwrite-on-insert; the program only ever builds maps starting from the
empty one, so keys remain distinct. -/

/-- Model of Go `map[string]bool`: association list, first match wins on
lookup, overwrite on insert. -/
abbrev dayMap := List (String × Bool)

/-- Map assignment `d[k] = v`: overwrite the entry for `k` if present,
otherwise append it. -/
def mapSet : dayMap → String → Bool → dayMap
  | [], k, v => [(k, v)]
  | (k0, v0) :: rest, k, v =>
    if k0 = k then (k, v) :: rest else (k0, v0) :: mapSet rest k v

/-- `dayMap.Add` from `main.go`: format the timestamp's date and store
whether it is a working day.  Both the date and the weekday are taken
from the wall clock of `t`, i.e. in the zone offset `t` itself carries. -/
def dayMap.Add (d : dayMap) (t : GoTime) : dayMap :=
  let wall := t.unix + t.offset
  mapSet d (formatGoDate wall) (isWorkingWall wall)

/-- `len(daysInTheOffice)`: number of distinct days stored. -/
def dayMap.size (d : dayMap) : ℕ := d.length

/-- `dayMap.CountWorkingDays` from `main.go`: count the `true` values. -/
def dayMap.CountWorkingDays (d : dayMap) : ℕ := d.countP (fun kv => kv.2)

/-- `dayMap.ToSlice` from `main.go`: the list of keys. -/
def dayMap.ToSlice (d : dayMap) : List String := d.map (fun kv => kv.1)

/-! ## Float parsing (`strconv.ParseFloat`)

`parsePoint` ignores the error return of `strconv.ParseFloat`, which
yields `0` for a syntactically malformed number.  The parser is modelled
over exact rationals on the finite decimal syntax
`[sign] (digits [. digits] | . digits) [(e|E) [sign] digits]`, the
grammar covering the coordinate strings this program reads (the hex,
infinity and NaN forms that `ParseFloat` also accepts are outside the
modelled domain). -/

/-- ASCII decimal digit test. -/
def isDigitCh (c : Char) : Bool := '0' ≤ c && c ≤ '9'

/-- Value of a digit string, most significant first. -/
def digitsToNat (cs : List Char) : ℕ :=
  cs.foldl (fun a c => 10 * a + (c.toNat - 48)) 0

/-- Exponent-suffix part of the `ParseFloat` grammar: empty input keeps
the mantissa, `e`/`E` with a signed digit run scales it, anything else is
a syntax error. -/
def goParseFloatExp (mant : ℚ) : List Char → Option ℚ
  | [] => some mant
  | e :: r =>
    if e = 'e' || e = 'E' then
      let se : Int × List Char :=
        match r with
        | '+' :: r2 => (1, r2)
        | '-' :: r2 => (-1, r2)
        | r2 => (1, r2)
      let ed := se.2.takeWhile isDigitCh
      let rest := se.2.dropWhile isDigitCh
      if ed.isEmpty || !rest.isEmpty then none
      else some (mant * (10 : ℚ) ^ (se.1 * (digitsToNat ed : Int)))
    else none

/-- Model of `strconv.ParseFloat(s, 64)` over exact rationals: `none`
means the Go call reports a syntax error (and returns `0`). -/
def goParseFloat (s : List Char) : Option ℚ :=
  let sc : ℚ × List Char :=
    match s with
    | '+' :: r => (1, r)
    | '-' :: r => (-1, r)
    | r => (1, r)
  let ip := sc.2.takeWhile isDigitCh
  let cs1 := sc.2.dropWhile isDigitCh
  match cs1 with
  | '.' :: r =>
    let fp := r.takeWhile isDigitCh
    let cs2 := r.dropWhile isDigitCh
    if ip.isEmpty && fp.isEmpty then none
    else goParseFloatExp (sc.1 * ((digitsToNat ip : ℚ) + (digitsToNat fp : ℚ) / 10 ^ fp.length)) cs2
  | _ =>
    if ip.isEmpty then none
    else goParseFloatExp (sc.1 * (digitsToNat ip : ℚ)) cs1

/-! ## The point parser (`parsePoint` in `main.go`)

```go
func parsePoint(value string) (float64, float64) {
    // "51.6503959°, 5.0492413°"
    coords := strings.Split(strings.ReplaceAll(value, "°", ""), ", ")
    lat, _ := strconv.ParseFloat(coords[0], 64)
    long, _ := strconv.ParseFloat(coords[1], 64)
    return lat, long
}
```

`strings.Split` always returns at least one element, so `coords[0]` is
safe, but `coords[1]` is an out-of-range index — a runtime panic —
whenever the input contains no `", "` separator.  The panic is modelled
as `none`. -/

/-- `strings.ReplaceAll(value, "°", "")`: the pattern is a single
character, so replacement by the empty string is removal of that
character. -/
def stripDegrees (s : String) : List Char :=
  s.toList.filter (fun c => !(c = '°'))

/-- `strings.Split(s, ", ")`: split around each non-overlapping
occurrence of the separator, leftmost first; always non-empty. -/
def splitCommaSpace : List Char → List (List Char)
  | [] => [[]]
  | ',' :: ' ' :: rest => [] :: splitCommaSpace rest
  | c :: rest =>
    match splitCommaSpace rest with
    | [] => [[c]]
    | h :: t => (c :: h) :: t

/-- `parsePoint` from `main.go`.  `none` models the out-of-range index
panic on `coords[1]` when the separator is missing; a malformed numeric
side contributes `0` because the `ParseFloat` error is discarded. -/
def parsePoint (value : String) : Option (ℚ × ℚ) :=
  match splitCommaSpace (stripDegrees value) with
  | c0 :: c1 :: _ => some ((goParseFloat c0).getD 0, (goParseFloat c1).getD 0)
  | _ => none

/-! ## The decoded input schema (`wrapper` in `ParseTimelineInput`) -/

/-- The nested `location` sub-object of a place visit. -/
structure visitedPlaceLocation where
  LatitudeE7 : Int
  LongitudeE7 : Int
  Address : String
  Name : String
deriving DecidableEq

/-- The nested `duration` sub-object of a place visit. -/
structure visitDuration where
  Start : GoTime
  End : GoTime
deriving DecidableEq

/-- `timelineVisitedPlace` from `main.go` (Variant B place visit). -/
structure timelineVisitedPlace where
  Location : visitedPlaceLocation
  Duration : visitDuration
  VisitConfidence : Int
  CenterLatE7 : Int
  CenterLngE7 : Int
deriving DecidableEq

/-- One entry of the `timelineObjects` array: an optional place visit
(`nil` for activity segments and other non-visit entries). -/
structure timelineObject where
  PlaceVisit : Option timelineVisitedPlace
deriving DecidableEq

/-- One point of a `timelinePath` (Variant A). -/
structure pathPoint where
  Point : String
  Time : GoTime
deriving DecidableEq

/-- `semanticSegment` from `main.go` (Variant A segment). -/
structure semanticSegment where
  StartTime : GoTime
  EndTime : GoTime
  TimelinePath : List pathPoint
deriving DecidableEq

/-- The anonymous `wrapper` struct of `ParseTimelineInput`.  A `nil`
`SemanticSegments` slice (key absent or JSON `null`) is `none`; for
`TimelineObjects` the nil/empty distinction is unobservable, so it is a
plain list. -/
structure timelineWrapper where
  TimelineObjects : List timelineObject
  SemanticSegments : Option (List semanticSegment)
deriving DecidableEq

/-- `timelinePoint` from `main.go`: the canonical normalized record. -/
structure timelinePoint where
  Latitude : ℚ
  Longitude : ℚ
  Start : GoTime
  End : GoTime
deriving DecidableEq

/-! ## Normalization (`ParseTimelineInput`, lines 214–258)

The record-producing part of `ParseTimelineInput`, after the JSON has
been decoded into the wrapper.  Variant A is used exactly when the
`semanticSegments` slice is non-nil; the outer `Option` models the
`parsePoint` panic propagating out of the loop. -/

/-- The per-visit record constructor of the Variant B loop, lines
241–255: if either E7 center field is zero (the `||` in the source),
both coordinates fall back to the nested `location`'s E7 fields; the
coordinate is the chosen integer divided by `1e7`. -/
def visitRecord (pv : timelineVisitedPlace) : timelinePoint :=
  let cLat := if pv.CenterLatE7 = 0 ∨ pv.CenterLngE7 = 0
              then pv.Location.LatitudeE7 else pv.CenterLatE7
  let cLng := if pv.CenterLatE7 = 0 ∨ pv.CenterLngE7 = 0
              then pv.Location.LongitudeE7 else pv.CenterLngE7
  { Latitude := (cLat : ℚ) / 1e7, Longitude := (cLng : ℚ) / 1e7,
    Start := pv.Duration.Start, End := pv.Duration.End }

/-- The body of the inner Variant A loop (lines 219–228): parse the
point text — a panic aborts the whole loop — and append one record
inheriting the segment's timestamps. -/
def pathStep (entry : semanticSegment) (acc2 : List timelinePoint) (point : pathPoint) :
    Option (List timelinePoint) :=
  (parsePoint point.Point).map (fun c =>
    acc2 ++ [{ Latitude := c.1, Longitude := c.2,
               Start := entry.StartTime, End := entry.EndTime }])

/-- The per-path-point record of the Variant A loop when its point text
parses (the successful case of `pathStep`). -/
def segmentRecord (entry : semanticSegment) (point : pathPoint) : timelinePoint :=
  let c := (parsePoint point.Point).getD (0, 0)
  { Latitude := c.1, Longitude := c.2,
    Start := entry.StartTime, End := entry.EndTime }

/-- The loop section of `ParseTimelineInput`: expand semantic segments
(Variant A) when the slice is non-nil, otherwise collect non-nil place
visits (Variant B). -/
def normalizeRecords (w : timelineWrapper) : Option (List timelinePoint) :=
  match w.SemanticSegments with
  | some segs =>
    segs.foldlM (fun acc entry => entry.TimelinePath.foldlM (pathStep entry) acc)
      ([] : List timelinePoint)
  | none =>
    some (w.TimelineObjects.foldl (fun acc entry =>
      match entry.PlaceVisit with
      | none => acc
      | some pv => acc ++ [visitRecord pv]) [])

/-! ## JSON decoding (`json.NewDecoder(input).Decode(&w)`)

A minimal JSON value type and a model of `encoding/json` unmarshalling
into the wrapper struct.  Semantics modelled from the `encoding/json`
documentation: a JSON object decodes field by field in source order
(later duplicate keys overwrite), unknown keys are ignored, `null`
leaves a field at its zero value, and a type mismatch is an error.
Key matching is modelled as exact (Go additionally falls back to a
case-insensitive match; the exported files use the exact keys). -/

/-- A JSON value. -/
inductive JVal where
  | jnull : JVal
  | jbool : Bool → JVal
  | jnum : ℚ → JVal
  | jstr : String → JVal
  | jarr : List JVal → JVal
  | jobj : List (String × JVal) → JVal

/-- Decode a JSON value into a Go `int`: the number must be integral. -/
def decodeInt : JVal → Except String Int
  | .jnum q => if q.den = 1 then .ok q.num else .error "cannot unmarshal number into field of type int"
  | _ => .error "cannot unmarshal value into field of type int"

/-- Decode a JSON value into a Go `string`. -/
def decodeString : JVal → Except String String
  | .jstr s => .ok s
  | _ => .error "cannot unmarshal value into field of type string"

/-- Parse a fixed-width digit run into a natural number. -/
def parseFixedNat (width : ℕ) (cs : List Char) : Option (ℕ × List Char) :=
  let ds := cs.take width
  if ds.length = width && ds.all isDigitCh then some (digitsToNat ds, cs.drop width)
  else none

/-- Expect one specific character. -/
def expectCh (c : Char) : List Char → Option (List Char)
  | c0 :: rest => if c0 = c then some rest else none
  | [] => none

/-- Parse the zone suffix of an RFC3339 timestamp: `Z` or `±HH:MM`,
returning the offset in seconds east of UTC. -/
def parseRFC3339Zone : List Char → Option Int
  | ['Z'] => some 0
  | c :: rest =>
    if c = '+' || c = '-' then
      match parseFixedNat 2 rest with
      | some (oh, rest1) =>
        match expectCh ':' rest1 with
        | some rest2 =>
          match parseFixedNat 2 rest2 with
          | some (om, rest3) =>
            if rest3.isEmpty && oh ≤ 23 && om ≤ 59 then
              some ((if c = '-' then -1 else 1) * ((oh : Int) * 3600 + om * 60))
            else none
          | none => none
        | none => none
      | none => none
    else none
  | [] => none

/-- Model of Go `time.Parse(time.RFC3339, s)` (the parser used when
`encoding/json` decodes a `time.Time`): `YYYY-MM-DDTHH:MM:SS`, optional
fractional seconds (ignored; the model keeps whole seconds), then `Z` or
a `±HH:MM` offset.  Day-of-month validation is approximated by `1..31`. -/
def parseRFC3339 (s : String) : Except String GoTime :=
  let step : Option GoTime := do
    let cs := s.toList
    let (y, cs) ← parseFixedNat 4 cs
    let cs ← expectCh '-' cs
    let (mo, cs) ← parseFixedNat 2 cs
    let cs ← expectCh '-' cs
    let (d, cs) ← parseFixedNat 2 cs
    let cs ← expectCh 'T' cs
    let (h, cs) ← parseFixedNat 2 cs
    let cs ← expectCh ':' cs
    let (mi, cs) ← parseFixedNat 2 cs
    let cs ← expectCh ':' cs
    let (sec, cs) ← parseFixedNat 2 cs
    let cs := match cs with
      | '.' :: rest => if (rest.takeWhile isDigitCh).isEmpty then '.' :: rest
                       else rest.dropWhile isDigitCh
      | rest => rest
    let off ← parseRFC3339Zone cs
    if 1 ≤ mo && mo ≤ 12 && 1 ≤ d && d ≤ 31 && h ≤ 23 && mi ≤ 59 && sec ≤ 59 then
      pure ⟨daysFromCivil y mo d * 86400 + h * 3600 + mi * 60 + sec - off, off⟩
    else none
  match step with
  | some t => .ok t
  | none => .error "parsing time: cannot parse as RFC3339"

/-- Decode a JSON value into a Go `time.Time` (a string in RFC3339). -/
def decodeGoTime : JVal → Except String GoTime
  | .jstr s => parseRFC3339 s
  | _ => .error "cannot unmarshal value into field of type time.Time"

/-- Struct decoding skeleton: start from the zero value and fold over
the object's fields in order; `null` values leave the field unchanged
and a non-object, non-null value is an error. -/
def foldFields {α : Type} (step : α → String × JVal → Except String α) (init : α) :
    JVal → Except String α
  | .jnull => .ok init
  | .jobj fs =>
    fs.foldlM (fun acc kv =>
      match kv.2 with
      | .jnull => .ok acc
      | _ => step acc kv) init
  | _ => .error "cannot unmarshal value into struct"

/-- Decode a JSON value into a list via its element decoder. -/
def decodeList {α : Type} (f : JVal → Except String α) : JVal → Except String (List α)
  | .jarr xs => xs.mapM f
  | _ => .error "cannot unmarshal value into slice"

/-- Zero value of the `location` sub-struct. -/
def zeroLocation : visitedPlaceLocation := ⟨0, 0, "", ""⟩

/-- Decode the `location` sub-object. -/
def decodeLocation : JVal → Except String visitedPlaceLocation :=
  foldFields (fun acc kv =>
    if kv.1 = "latitudeE7" then (decodeInt kv.2).map (fun v => { acc with LatitudeE7 := v })
    else if kv.1 = "longitudeE7" then (decodeInt kv.2).map (fun v => { acc with LongitudeE7 := v })
    else if kv.1 = "address" then (decodeString kv.2).map (fun v => { acc with Address := v })
    else if kv.1 = "name" then (decodeString kv.2).map (fun v => { acc with Name := v })
    else .ok acc) zeroLocation

/-- Decode the `duration` sub-object. -/
def decodeDuration : JVal → Except String visitDuration :=
  foldFields (fun acc kv =>
    if kv.1 = "startTimestamp" then (decodeGoTime kv.2).map (fun v => { acc with Start := v })
    else if kv.1 = "endTimestamp" then (decodeGoTime kv.2).map (fun v => { acc with End := v })
    else .ok acc) ⟨goZeroTime, goZeroTime⟩

/-- Decode a `placeVisit` object. -/
def decodeVisitedPlace : JVal → Except String timelineVisitedPlace :=
  foldFields (fun acc kv =>
    if kv.1 = "location" then (decodeLocation kv.2).map (fun v => { acc with Location := v })
    else if kv.1 = "duration" then (decodeDuration kv.2).map (fun v => { acc with Duration := v })
    else if kv.1 = "visitConfidence" then (decodeInt kv.2).map (fun v => { acc with VisitConfidence := v })
    else if kv.1 = "centerLatE7" then (decodeInt kv.2).map (fun v => { acc with CenterLatE7 := v })
    else if kv.1 = "centerLngE7" then (decodeInt kv.2).map (fun v => { acc with CenterLngE7 := v })
    else .ok acc) ⟨zeroLocation, ⟨goZeroTime, goZeroTime⟩, 0, 0, 0⟩

/-- Decode one `timelineObjects` entry (the `placeVisit` pointer stays
`nil` when the key is absent or null). -/
def decodeTimelineObject : JVal → Except String timelineObject :=
  foldFields (fun acc kv =>
    if kv.1 = "placeVisit" then (decodeVisitedPlace kv.2).map (fun v => { acc with PlaceVisit := some v })
    else .ok acc) ⟨none⟩

/-- Decode one `timelinePath` point. -/
def decodePathPoint : JVal → Except String pathPoint :=
  foldFields (fun acc kv =>
    if kv.1 = "point" then (decodeString kv.2).map (fun v => { acc with Point := v })
    else if kv.1 = "time" then (decodeGoTime kv.2).map (fun v => { acc with Time := v })
    else .ok acc) ⟨"", goZeroTime⟩

/-- Decode one `semanticSegments` entry. -/
def decodeSemanticSegment : JVal → Except String semanticSegment :=
  foldFields (fun acc kv =>
    if kv.1 = "startTime" then (decodeGoTime kv.2).map (fun v => { acc with StartTime := v })
    else if kv.1 = "endTime" then (decodeGoTime kv.2).map (fun v => { acc with EndTime := v })
    else if kv.1 = "timelinePath" then (decodeList decodePathPoint kv.2).map (fun v => { acc with TimelinePath := v })
    else .ok acc) ⟨goZeroTime, goZeroTime, []⟩

/-- Decode the top-level document into the wrapper struct.  Both slices
start at their zero value `nil`; a `semanticSegments` key with an array
value makes the slice non-nil (`some`), even when the array is empty. -/
def decodeWrapper : JVal → Except String timelineWrapper :=
  foldFields (fun acc kv =>
    if kv.1 = "timelineObjects" then
      (decodeList decodeTimelineObject kv.2).map (fun v => { acc with TimelineObjects := v })
    else if kv.1 = "semanticSegments" then
      (decodeList decodeSemanticSegment kv.2).map (fun v => { acc with SemanticSegments := some v })
    else .ok acc) ⟨[], none⟩

/-- `ParseTimelineInput` from `main.go`: decode the document, then run
the normalization loops.  The outer `Option` models the `parsePoint`
panic (no return at all); `Except.error` is the function's error return,
with the `decoding JSON:` context the Go code wraps around it. -/
def ParseTimelineInput (j : JVal) : Option (Except String (List timelinePoint)) :=
  match decodeWrapper j with
  | .error e => some (.error ("decoding JSON: " ++ e))
  | .ok w => (normalizeRecords w).map .ok

/-! ## Geographic distance (`geo.DistanceHaversine` from paulmach/orb)

`orb.Point` is a `[2]float64`; `main.go` constructs both points as
`orb.Point{latitude, longitude}`, so index 0 holds the latitude value and
index 1 the longitude value (orb itself names index 1 `Lat()`).  The
formula is transcribed from `orb/geo/distance.go` with `p.1` for index 0
and `p.2` for index 1, over the real numbers. -/

/-- An `orb.Point`: index 0 is `.1`, index 1 is `.2`. -/
abbrev OrbPoint := ℝ × ℝ

/-- `orb.EarthRadius` (meters). -/
noncomputable def EarthRadius : ℝ := 6378137

/-- `deg2rad` from `orb/geo`. -/
noncomputable def deg2rad (d : ℝ) : ℝ := d * Real.pi / 180

open Classical in
/-- Go's `math.Atan2(y, x)` on finite reals. -/
noncomputable def atan2 (y x : ℝ) : ℝ :=
  if 0 < x then Real.arctan (y / x)
  else if x < 0 then
    (if 0 ≤ y then Real.arctan (y / x) + Real.pi else Real.arctan (y / x) - Real.pi)
  else
    (if 0 < y then Real.pi / 2 else if y < 0 then -(Real.pi / 2) else 0)

/-- `geo.DistanceHaversine` from `orb/geo/distance.go` (where `Lat()` is
index 1 and `Lon()` is index 0 of the point). -/
noncomputable def DistanceHaversine (p1 p2 : OrbPoint) : ℝ :=
  let dLat := deg2rad (p1.2 - p2.2)
  let dLon := deg2rad (p1.1 - p2.1)
  let dLat2Sin := Real.sin (dLat / 2)
  let dLon2Sin := Real.sin (dLon / 2)
  let a := dLat2Sin * dLat2Sin +
    Real.cos (deg2rad p2.2) * Real.cos (deg2rad p1.2) * dLon2Sin * dLon2Sin
  2 * EarthRadius * atan2 (Real.sqrt a) (Real.sqrt (1 - a))

/-! ## The matching pipeline (`processFile`, lines 143–161) -/

/-- The skip condition of the record loop (line 146):
`place.End.Before(startDate) || place.Start.After(endDate)`. -/
def skipsPlace (startDate endDate : GoTime) (place : timelinePoint) : Bool :=
  place.End.Before startDate || place.Start.After endDate

/-- The `orb.Point{place.Latitude, place.Longitude}` of a record. -/
noncomputable def recordPoint (place : timelinePoint) : OrbPoint :=
  ((place.Latitude : ℝ), (place.Longitude : ℝ))

open Classical in
/-- The record loop of `processFile`: skip records outside the time
range; for the rest, insert the start day when the haversine distance to
the office is within tolerance, and count them (`placesProcessed`). -/
noncomputable def processPlaces (startDate endDate : GoTime) (officeLocation : OrbPoint)
    (tolerance : ℝ) : dayMap × ℕ → List timelinePoint → dayMap × ℕ
  | acc, [] => acc
  | (d, n), place :: rest =>
    if place.End.Before startDate || place.Start.After endDate then
      processPlaces startDate endDate officeLocation tolerance (d, n) rest
    else
      let distance := DistanceHaversine officeLocation (recordPoint place)
      let d1 := if distance ≤ tolerance then d.Add place.Start else d
      processPlaces startDate endDate officeLocation tolerance (d1, n + 1) rest

/-- `processFile` from `main.go`, taking the outcome of opening and
parsing the file.  On a file-open or decode error the error is only
logged and `places` stays `nil`, so the loop body never runs; the
function returns the day map and the `placesProcessed` count. -/
noncomputable def processFile (parseOutcome : Except String (List timelinePoint))
    (startDate endDate : GoTime) (officeLocation : OrbPoint) (tolerance : ℝ)
    (daysInTheOffice : dayMap) : dayMap × ℕ :=
  let places := match parseOutcome with
    | .error _ => []
    | .ok ps => ps
  processPlaces startDate endDate officeLocation tolerance (daysInTheOffice, 0) places

/-- The per-file loop of `main`: each file's outcome is processed
against the shared day map in order. -/
noncomputable def runFiles (startDate endDate : GoTime) (officeLocation : OrbPoint)
    (tolerance : ℝ) (daysInTheOffice : dayMap)
    (files : List (Except String (List timelinePoint))) : dayMap :=
  files.foldl (fun d f => (processFile f startDate endDate officeLocation tolerance d).1)
    daysInTheOffice

/-! ## Concrete values used in the theorems -/

/-- A place visit whose E7 center fields are present and not both zero
(`centerLatE7 = 0`, `centerLngE7 = 115858037`) while the nested location
fields give `(1, 2)` decimal degrees. -/
def visitCenterLatZero : timelineVisitedPlace :=
  ⟨⟨10000000, 20000000, "", ""⟩, ⟨⟨0, 0⟩, ⟨0, 0⟩⟩, 0, 0, 115858037⟩

/-- A place visit with both E7 center fields nonzero — the spec's test
vector `centerLatE7 = 481794935`, `centerLngE7 = 115858037`. -/
def visitCenterMunich : timelineVisitedPlace :=
  ⟨⟨0, 0, "", ""⟩, ⟨⟨0, 0⟩, ⟨0, 0⟩⟩, 0, 481794935, 115858037⟩

/-- A semantic segment holding the spec's example coordinate text. -/
def segExample : semanticSegment :=
  ⟨utcDate 2022 3 4, utcDate 2022 3 5, [⟨"51.6503959°, 5.0492413°", utcDate 2022 3 4⟩]⟩

/-- The record with interval `[2022-01-01, 2022-01-03]` from the spec's
time-filter test vector (the coordinates play no role there). -/
def recJan : timelinePoint :=
  ⟨48, 11, utcDate 2022 1 1, utcDate 2022 1 3⟩

/-- Modelled from the spec: `insert(timestamp)` of §4.5 "derives
calendar date and working-day flag from the timestamp in the process's
local time zone" — the wall clock is taken as the absolute instant plus
the process-local zone offset, not the offset the timestamp carries.
Used to compare the specified behavior with `dayMap.Add`. -/
def dayMapAddLocalZone (localOffset : Int) (d : dayMap) (t : GoTime) : dayMap :=
  let wall := t.unix + localOffset
  mapSet d (formatGoDate wall) (isWorkingWall wall)

/-- Predicate on an object field: if it bears the given key, its value
is JSON `null`. -/
def isNullIfKey (k : String) (kv : String × JVal) : Bool :=
  if kv.1 = k then (match kv.2 with | .jnull => true | _ => false) else true

/-- A `timelineObjects` array element that produces no place visit: JSON
`null`, or an object whose `placeVisit` fields (if any) are all `null`. -/
def noVisitEntry : JVal → Bool
  | .jnull => true
  | .jobj gs => gs.all (isNullIfKey "placeVisit")
  | _ => false

/-- Predicate on a top-level field: if it is `timelineObjects`, its
value is `null` or an array of visit-free entries. -/
def noVisitObjectsField (kv : String × JVal) : Bool :=
  if kv.1 = "timelineObjects" then
    match kv.2 with
    | .jnull => true
    | .jarr xs => xs.all noVisitEntry
    | _ => false
  else true

/-! ## Helper lemmas -/

theorem mapSet_idem (d : dayMap) (k : String) (v : Bool) :
    mapSet (mapSet d k v) k v = mapSet d k v := by
  induction d with
  | nil => simp [mapSet]
  | cons kv rest ih =>
    obtain ⟨k0, v0⟩ := kv
    by_cases h : k0 = k
    · simp [mapSet, h]
    · simp [mapSet, h, ih]

theorem dayMap.Add_idem (d : dayMap) (t : GoTime) : (d.Add t).Add t = d.Add t := by
  simp [dayMap.Add, mapSet_idem]

theorem visitFold (objs : List timelineObject) (acc : List timelinePoint) :
    objs.foldl (fun acc entry =>
      match entry.PlaceVisit with
      | none => acc
      | some pv => acc ++ [visitRecord pv]) acc
    = acc ++ objs.filterMap (fun e => e.PlaceVisit.map visitRecord) := by
  induction objs generalizing acc with
  | nil => simp
  | cons e rest ih =>
    cases h : e.PlaceVisit with
    | none => simp [List.foldl_cons, h, ih]
    | some pv => simp [List.foldl_cons, h, ih]

theorem normalizeRecords_variantB (objs : List timelineObject) :
    normalizeRecords ⟨objs, none⟩
      = some (objs.filterMap (fun e => e.PlaceVisit.map visitRecord)) := by
  simp only [normalizeRecords]
  rw [visitFold]
  simp

theorem pathFold (entry : semanticSegment) (pts : List pathPoint) (acc : List timelinePoint)
    (h : ∀ pt ∈ pts, (parsePoint pt.Point).isSome = true) :
    pts.foldlM (pathStep entry) acc = some (acc ++ pts.map (segmentRecord entry)) := by
  induction pts generalizing acc with
  | nil => simp
  | cons pt rest ih =>
    obtain ⟨c, hc⟩ := Option.isSome_iff_exists.mp (h pt (by simp))
    rw [List.foldlM_cons]
    have hstep : pathStep entry acc pt
        = some (acc ++ [segmentRecord entry pt]) := by
      simp [pathStep, segmentRecord, hc]
    rw [hstep]
    simp only [Option.bind_eq_bind, Option.some_bind]
    rw [ih _ (fun pt' hpt' => h pt' (by simp [hpt']))]
    simp

theorem segFold (segs : List semanticSegment) (acc : List timelinePoint)
    (h : ∀ s ∈ segs, ∀ pt ∈ s.TimelinePath, (parsePoint pt.Point).isSome = true) :
    segs.foldlM (fun acc entry => entry.TimelinePath.foldlM (pathStep entry) acc) acc
    = some (acc ++ segs.flatMap (fun s => s.TimelinePath.map (segmentRecord s))) := by
  induction segs generalizing acc with
  | nil => simp
  | cons s rest ih =>
    rw [List.foldlM_cons, pathFold s _ _ (h s (by simp))]
    simp only [Option.bind_eq_bind, Option.some_bind]
    rw [ih _ (fun s' hs' => h s' (by simp [hs']))]
    simp

theorem normalizeRecords_variantA (segs : List semanticSegment) (objs : List timelineObject)
    (h : ∀ s ∈ segs, ∀ pt ∈ s.TimelinePath, (parsePoint pt.Point).isSome = true) :
    normalizeRecords ⟨objs, some segs⟩
      = some (segs.flatMap (fun s => s.TimelinePath.map (segmentRecord s))) := by
  simp only [normalizeRecords]
  rw [segFold segs [] h]
  simp


theorem DistanceHaversine_self (q : OrbPoint) : DistanceHaversine q q = 0 := by
  simp [DistanceHaversine, deg2rad, atan2, Real.arctan_zero]

theorem processPlaces_cons (sd ed : GoTime) (off : OrbPoint) (tol : ℝ) (d : dayMap) (n : ℕ)
    (p : timelinePoint) (rest : List timelinePoint) :
    processPlaces sd ed off tol (d, n) (p :: rest)
      = if (p.End.Before sd || p.Start.After ed) = true then
          processPlaces sd ed off tol (d, n) rest
        else
          processPlaces sd ed off tol
            ((if DistanceHaversine off (recordPoint p) ≤ tol then d.Add p.Start else d), n + 1)
            rest := rfl

theorem processPlaces_filter (sd ed : GoTime) (off : OrbPoint) (tol : ℝ)
    (acc : dayMap × ℕ) (ps : List timelinePoint) :
    processPlaces sd ed off tol acc ps
      = processPlaces sd ed off tol acc (ps.filter (fun p => !skipsPlace sd ed p)) := by
  induction ps generalizing acc with
  | nil => rfl
  | cons p rest ih =>
    obtain ⟨d, n⟩ := acc
    rw [processPlaces_cons, List.filter_cons]
    rcases Bool.eq_false_or_eq_true (p.End.Before sd || p.Start.After ed) with h | h
    · have hs : (!skipsPlace sd ed p) = false := by simp [skipsPlace, h]
      rw [hs, if_pos h, if_neg (show ¬((false : Bool) = true) by simp)]
      exact ih _
    · have hs : (!skipsPlace sd ed p) = true := by simp [skipsPlace, h]
      rw [hs, if_neg (show ¬((p.End.Before sd || p.Start.After ed) = true) by simp [h]),
        if_pos (show (true : Bool) = true from rfl), processPlaces_cons,
        if_neg (show ¬((p.End.Before sd || p.Start.After ed) = true) by simp [h])]
      exact ih _

theorem processPlaces_count (sd ed : GoTime) (off : OrbPoint) (tol : ℝ)
    (d : dayMap) (n : ℕ) (ps : List timelinePoint) :
    (processPlaces sd ed off tol (d, n) ps).2
      = n + (ps.filter (fun p => !skipsPlace sd ed p)).length := by
  induction ps generalizing d n with
  | nil => simp [processPlaces]
  | cons p rest ih =>
    rw [processPlaces_cons, List.filter_cons]
    rcases Bool.eq_false_or_eq_true (p.End.Before sd || p.Start.After ed) with h | h
    · have hs : (!skipsPlace sd ed p) = false := by simp [skipsPlace, h]
      rw [hs, if_pos h, if_neg (show ¬((false : Bool) = true) by simp), ih]
    · have hs : (!skipsPlace sd ed p) = true := by simp [skipsPlace, h]
      rw [hs, if_neg (show ¬((p.End.Before sd || p.Start.After ed) = true) by simp [h]),
        if_pos (show (true : Bool) = true from rfl), ih]
      simp only [List.length_cons]
      omega

theorem goParseFloat_specLat : goParseFloat "51.6503959".toList = some (51.6503959 : ℚ) := by
  have h : goParseFloat "51.6503959".toList
      = some ((1 : ℚ) * ((digitsToNat ['5', '1'] : ℚ)
          + (digitsToNat ['6', '5', '0', '3', '9', '5', '9'] : ℚ)
            / 10 ^ (['6', '5', '0', '3', '9', '5', '9'] : List Char).length)) := rfl
  have e1 : digitsToNat ['5', '1'] = 51 := by decide
  have e2 : digitsToNat ['6', '5', '0', '3', '9', '5', '9'] = 6503959 := by decide
  rw [h, e1, e2]
  norm_num

theorem goParseFloat_specLon : goParseFloat "5.0492413".toList = some (5.0492413 : ℚ) := by
  have h : goParseFloat "5.0492413".toList
      = some ((1 : ℚ) * ((digitsToNat ['5'] : ℚ)
          + (digitsToNat ['0', '4', '9', '2', '4', '1', '3'] : ℚ)
            / 10 ^ (['0', '4', '9', '2', '4', '1', '3'] : List Char).length)) := rfl
  have e1 : digitsToNat ['5'] = 5 := by decide
  have e2 : digitsToNat ['0', '4', '9', '2', '4', '1', '3'] = 492413 := by decide
  rw [h, e1, e2]
  norm_num

theorem parsePoint_specExample :
    parsePoint "51.6503959°, 5.0492413°" = some (51.6503959, 5.0492413) := by
  have hsplit : splitCommaSpace (stripDegrees "51.6503959°, 5.0492413°")
      = ["51.6503959".toList, "5.0492413".toList] := by decide
  simp only [parsePoint, hsplit, goParseFloat_specLat, goParseFloat_specLon, Option.getD_some]

/-! ## The claims -/

/-- C1 (corrected by `C1_point_parser_amended`): the claim that
`parsePoint` returns a pair for every input string, never failing, is
false — an input with no `", "` separator makes `coords` a one-element
slice, so `coords[1]` is an out-of-range index, a runtime panic
(modelled as `none`). -/
theorem C1_counterexample : parsePoint "hello" = none := by decide

/-- C1, amended: `parsePoint` returns a pair exactly when the input,
after removing degree signs, splits on `", "` into at least two parts;
non-numeric text on either side then silently parses to `0` (shown for
`"abc, def"`), and the spec's well-formed example parses to its two
coordinates, while separator-free input fails on the out-of-range index
`coords[1]` instead of yielding zero values. -/
theorem C1_point_parser_amended :
    (∀ v : String,
        (parsePoint v).isSome = true ↔ 2 ≤ (splitCommaSpace (stripDegrees v)).length) ∧
    parsePoint "51.6503959°, 5.0492413°" = some (51.6503959, 5.0492413) ∧
    parsePoint "abc, def" = some (0, 0) ∧
    parsePoint "hello" = none := by
  refine ⟨?_, parsePoint_specExample, by decide, by decide⟩
  intro v
  rcases h : splitCommaSpace (stripDegrees v) with _ | ⟨c0, _ | ⟨c1, t2⟩⟩ <;>
    simp [parsePoint, h]

/-- C2 (corrected by `C2_e7_fallback_amended`): the claim that the
Variant B fallback to the `location` E7 fields is taken exactly when the
center fields are absent or both zero is false: this place visit has
`centerLatE7 = 0` and `centerLngE7 = 115858037` — present and not both
zero — yet normalization produces the location-derived coordinates
`(1, 2)` rather than the center-derived ones. -/
theorem C2_counterexample :
    (¬ (visitCenterLatZero.CenterLatE7 = 0 ∧ visitCenterLatZero.CenterLngE7 = 0)) ∧
    normalizeRecords ⟨[⟨some visitCenterLatZero⟩], none⟩
      = some [{ Latitude := 1, Longitude := 2,
                Start := visitCenterLatZero.Duration.Start,
                End := visitCenterLatZero.Duration.End }] ∧
    ((1 : ℚ), (2 : ℚ)) ≠ ((visitCenterLatZero.CenterLatE7 : ℚ) / 1e7,
                          (visitCenterLatZero.CenterLngE7 : ℚ) / 1e7) := by
  refine ⟨by decide, ?_, ?_⟩
  · rw [normalizeRecords_variantB]
    simp only [List.filterMap, Option.map_some]
    simp [visitRecord, visitCenterLatZero]
    norm_num
  · simp only [visitCenterLatZero, Prod.mk.injEq, not_and]
    intro h
    norm_num at h

/-- C2, amended: for every place-visit entry, the fallback to the nested
location's E7 fields (for both coordinates at once) is taken exactly
when `centerLatE7` is zero or `centerLngE7` is zero — an absent field
decodes to zero; otherwise the center fields themselves are used.
Decimal degrees are the chosen integer divided by `1e7`. -/
theorem C2_e7_fallback_amended (pv : timelineVisitedPlace) :
    normalizeRecords ⟨[⟨some pv⟩], none⟩
      = some [{ Latitude := ((if pv.CenterLatE7 = 0 ∨ pv.CenterLngE7 = 0
                              then pv.Location.LatitudeE7 else pv.CenterLatE7 : Int) : ℚ) / 1e7,
                Longitude := ((if pv.CenterLatE7 = 0 ∨ pv.CenterLngE7 = 0
                               then pv.Location.LongitudeE7 else pv.CenterLngE7 : Int) : ℚ) / 1e7,
                Start := pv.Duration.Start, End := pv.Duration.End }] := by
  rw [normalizeRecords_variantB]
  simp [visitRecord]

/-- C5: if the `semanticSegments` key is present and non-null — even as
an empty array — Variant A parsing is used exclusively (the result does
not depend on the `timelineObjects` entries, and an empty segment list
yields no records); otherwise Variant B parsing is used. -/
theorem C5_variant_dispatch :
    (∀ (segs : List semanticSegment) (objs objs' : List timelineObject),
        normalizeRecords ⟨objs, some segs⟩ = normalizeRecords ⟨objs', some segs⟩) ∧
    (∀ objs : List timelineObject, normalizeRecords ⟨objs, some []⟩ = some []) ∧
    (∀ objs : List timelineObject,
        normalizeRecords ⟨objs, none⟩
          = some (objs.filterMap (fun e => e.PlaceVisit.map visitRecord))) :=
  ⟨fun _ _ _ => rfl, fun _ => rfl, fun objs => normalizeRecords_variantB objs⟩

/-- C7 (corrected by `C7_day_derivation_amended`): the claim that day
insertion derives the calendar date from the process's local time zone
regardless of the offset the timestamp carries is false: for the instant
1970-01-01T23:00:00Z carrying offset +02:00, the code stores the day
`1970-01-02` (the wall clock in the carried offset), while the spec's
local-zone derivation in a UTC process yields `1970-01-01`. -/
theorem C7_counterexample :
    dayMap.Add [] ⟨82800, 7200⟩ ≠ dayMapAddLocalZone 0 [] ⟨82800, 7200⟩ := by
  decide

/-- C7, amended: `dayMap.Add` derives the calendar date and working-day
flag from the timestamp interpreted in the zone offset the timestamp
itself carries (the spec's local-zone derivation instantiated at that
carried offset), so the stored day depends only on the timestamp's
wall-clock reading `unix + offset`, not on the process's zone. -/
theorem C7_day_derivation_amended :
    (∀ (d : dayMap) (t : GoTime), dayMap.Add d t = dayMapAddLocalZone t.offset d t) ∧
    (∀ (d : dayMap) (t u : GoTime), t.unix + t.offset = u.unix + u.offset →
        dayMap.Add d t = dayMap.Add d u) := by
  refine ⟨fun d t => rfl, fun d t u h => ?_⟩
  simp only [dayMap.Add, h]

theorem C7_day_derivation_amended_witness :
    ((⟨3600, 0⟩ : GoTime).unix + (⟨3600, 0⟩ : GoTime).offset
        = (⟨0, 3600⟩ : GoTime).unix + (⟨0, 3600⟩ : GoTime).offset) ∧
    dayMap.Add [] ⟨3600, 0⟩ = dayMap.Add [] ⟨0, 3600⟩ :=
  ⟨by decide, C7_day_derivation_amended.2 [] ⟨3600, 0⟩ ⟨0, 3600⟩ (by decide)⟩

/-- C8: day-set insertion is idempotent — once a timestamp has been
inserted, inserting it any number of further times leaves the map's
contents, its size, and its working-day count unchanged. -/
theorem C8_idempotent_insert (d : dayMap) (t : GoTime) (n : ℕ) :
    (fun m => dayMap.Add m t)^[n] (d.Add t) = d.Add t ∧
    dayMap.size ((fun m => dayMap.Add m t)^[n] (d.Add t)) = dayMap.size (d.Add t) ∧
    dayMap.CountWorkingDays ((fun m => dayMap.Add m t)^[n] (d.Add t))
      = dayMap.CountWorkingDays (d.Add t) := by
  have h : (fun m => dayMap.Add m t)^[n] (d.Add t) = d.Add t := by
    induction n with
    | zero => rfl
    | succ n ih => rw [Function.iterate_succ_apply, dayMap.Add_idem, ih]
  exact ⟨h, by rw [h], by rw [h]⟩

/-- C9: a file whose open or decode failed contributes zero records —
`processFile` returns the shared day map unchanged with a zero
processed-count — and the per-file loop continues with the remaining
files as if the failed file were absent. -/
theorem C9_failed_file_contributes_nothing :
    (∀ (e : String) (sd ed : GoTime) (off : OrbPoint) (tol : ℝ) (d : dayMap),
        processFile (.error e) sd ed off tol d = (d, 0)) ∧
    (∀ (e : String) (sd ed : GoTime) (off : OrbPoint) (tol : ℝ) (d : dayMap)
        (rest : List (Except String (List timelinePoint))),
        runFiles sd ed off tol d (.error e :: rest) = runFiles sd ed off tol d rest) :=
  ⟨fun _ _ _ _ _ _ => rfl, fun _ _ _ _ _ _ _ => rfl⟩

/-- C3: the record loop skips a record exactly when its interval lies
entirely before the range (`intervalEnd < start`) or entirely after it
(`intervalStart > end`): dropping the skipped records changes neither
the day map nor the processed-count, the processed-count is exactly the
number of non-skipped records, and the record `[2022-01-01, 2022-01-03]`
is considered for the range `[2022-01-02, 2022-01-02]` but skipped for
`[2022-01-04, 2022-01-05]`. -/
theorem C3_time_range_filter :
    (∀ (sd ed : GoTime) (off : OrbPoint) (tol : ℝ) (acc : dayMap × ℕ)
        (ps : List timelinePoint),
        processPlaces sd ed off tol acc ps
          = processPlaces sd ed off tol acc (ps.filter (fun p => !skipsPlace sd ed p))) ∧
    (∀ (sd ed : GoTime) (off : OrbPoint) (tol : ℝ) (d : dayMap) (n : ℕ)
        (ps : List timelinePoint),
        (processPlaces sd ed off tol (d, n) ps).2
          = n + (ps.filter (fun p => !skipsPlace sd ed p)).length) ∧
    (∀ (sd ed : GoTime) (p : timelinePoint),
        skipsPlace sd ed p
          = (decide (p.End.unix < sd.unix) || decide (ed.unix < p.Start.unix))) ∧
    skipsPlace (utcDate 2022 1 2) (utcDate 2022 1 2) recJan = false ∧
    skipsPlace (utcDate 2022 1 4) (utcDate 2022 1 5) recJan = true :=
  ⟨processPlaces_filter, processPlaces_count, fun _ _ _ => rfl, by decide, by decide⟩

/-- C4: a record that passes the time filter has its start day inserted
exactly when the haversine distance from the office to its coordinate is
at most the tolerance (boundary inclusive); the distance from a point to
itself is `0`, so a record at the office's exact coordinate matches any
nonnegative tolerance, while a record whose computed distance is 2000
meters is not inserted at tolerance 100. -/
theorem C4_distance_gate (sd ed : GoTime) (off : OrbPoint) (tol : ℝ) (d : dayMap)
    (p : timelinePoint) (h : skipsPlace sd ed p = false) :
    (processPlaces sd ed off tol (d, 0) [p]).1
      = (if DistanceHaversine off (recordPoint p) ≤ tol then d.Add p.Start else d) ∧
    (∀ q : OrbPoint, DistanceHaversine q q = 0) ∧
    (DistanceHaversine off (recordPoint p) = 2000 → tol = 100 →
      (processPlaces sd ed off tol (d, 0) [p]).1 = d) := by
  have hb : (p.End.Before sd || p.Start.After ed) = false := h
  have key : (processPlaces sd ed off tol (d, 0) [p]).1
      = (if DistanceHaversine off (recordPoint p) ≤ tol then d.Add p.Start else d) := by
    rw [processPlaces_cons,
      if_neg (show ¬((p.End.Before sd || p.Start.After ed) = true) by simp [hb])]
    rfl
  refine ⟨key, DistanceHaversine_self, fun h2000 htol => ?_⟩
  rw [key, h2000, htol, if_neg (by norm_num)]

theorem C4_distance_gate_witness :
    skipsPlace (utcDate 2022 1 2) (utcDate 2022 1 2) recJan = false ∧
    ((processPlaces (utcDate 2022 1 2) (utcDate 2022 1 2) ((48 : ℝ), (11 : ℝ)) 100
          ([], 0) [recJan]).1
        = (if DistanceHaversine ((48 : ℝ), (11 : ℝ)) (recordPoint recJan) ≤ 100
           then dayMap.Add [] recJan.Start else []) ∧
      (∀ q : OrbPoint, DistanceHaversine q q = 0) ∧
      (DistanceHaversine ((48 : ℝ), (11 : ℝ)) (recordPoint recJan) = 2000 →
        (100 : ℝ) = 100 →
        (processPlaces (utcDate 2022 1 2) (utcDate 2022 1 2) ((48 : ℝ), (11 : ℝ)) 100
            ([], 0) [recJan]).1 = [])) :=
  ⟨by decide, C4_distance_gate (utcDate 2022 1 2) (utcDate 2022 1 2) ((48 : ℝ), (11 : ℝ))
    100 [] recJan (by decide)⟩

/-- C6: normalization yields exactly one record per path point in
Variant A (each inheriting its segment's start and end timestamps, in
source order) and exactly one record per non-null place visit in
Variant B (in source order); the Variant B record with
`centerLatE7 = 481794935`, `centerLngE7 = 115858037` normalizes to
latitude `48.1794935` and longitude `11.5858037`. -/
theorem C6_record_normalization :
    (∀ (segs : List semanticSegment) (objs : List timelineObject),
        (∀ s ∈ segs, ∀ pt ∈ s.TimelinePath, (parsePoint pt.Point).isSome = true) →
        normalizeRecords ⟨objs, some segs⟩
          = some (segs.flatMap (fun s => s.TimelinePath.map (segmentRecord s)))) ∧
    (∀ objs : List timelineObject,
        normalizeRecords ⟨objs, none⟩
          = some (objs.filterMap (fun e => e.PlaceVisit.map visitRecord))) ∧
    normalizeRecords ⟨[⟨some visitCenterMunich⟩], none⟩
      = some [{ Latitude := 48.1794935, Longitude := 11.5858037,
                Start := visitCenterMunich.Duration.Start,
                End := visitCenterMunich.Duration.End }] := by
  refine ⟨fun segs objs h => normalizeRecords_variantA segs objs h,
    normalizeRecords_variantB, ?_⟩
  rw [normalizeRecords_variantB]
  simp [visitRecord, visitCenterMunich]
  norm_num

theorem C6_record_normalization_witness :
    (∀ s ∈ [segExample], ∀ pt ∈ s.TimelinePath, (parsePoint pt.Point).isSome = true) ∧
    normalizeRecords ⟨[], some [segExample]⟩
      = some ([segExample].flatMap (fun s => s.TimelinePath.map (segmentRecord s))) :=
  ⟨by decide, C6_record_normalization.1 [segExample] [] (by decide)⟩

theorem foldlM_except_const {α β : Type} (f : α → β → Except String α) (l : List β)
    (init : α) (h : ∀ x ∈ l, f init x = .ok init) :
    l.foldlM f init = .ok init := by
  induction l with
  | nil => rfl
  | cons x rest ih =>
    rw [List.foldlM_cons, h x (by simp)]
    exact ih (fun x hx => h x (by simp [hx]))

theorem foldlM_except_inv {α β : Type} (P : α → Prop) (f : α → β → Except String α)
    (l : List β) (hstep : ∀ a x, x ∈ l → P a → ∃ b, f a x = .ok b ∧ P b) :
    ∀ init, P init → ∃ w, l.foldlM f init = .ok w ∧ P w := by
  induction l with
  | nil => exact fun init h => ⟨init, rfl, h⟩
  | cons x rest ih =>
    intro init hinit
    obtain ⟨b, hb, hPb⟩ := hstep init x (by simp) hinit
    rw [List.foldlM_cons, hb]
    exact ih (fun a y hy hPa => hstep a y (by simp [hy]) hPa) b hPb

theorem decodeTimelineObject_noVisit (x : JVal) (h : noVisitEntry x = true) :
    decodeTimelineObject x = .ok ⟨none⟩ := by
  cases x with
  | jnull => rfl
  | jbool b => simp [noVisitEntry] at h
  | jnum q => simp [noVisitEntry] at h
  | jstr s => simp [noVisitEntry] at h
  | jarr xs => simp [noVisitEntry] at h
  | jobj gs =>
    simp only [noVisitEntry, List.all_eq_true] at h
    simp only [decodeTimelineObject, foldFields]
    refine foldlM_except_const _ gs (⟨none⟩ : timelineObject) ?_
    intro kv hkv
    have hnul := h kv hkv
    simp only [isNullIfKey] at hnul
    by_cases hk : kv.1 = "placeVisit"
    · rw [if_pos hk] at hnul
      cases hv : kv.2 <;> rw [hv] at hnul <;> simp at hnul
    · rw [if_neg hk] at hnul
      cases hv : kv.2 <;> simp [hv, hk]

theorem mapM_noVisit (xs : List JVal) (h : ∀ x ∈ xs, noVisitEntry x = true) :
    xs.mapM decodeTimelineObject
      = .ok (xs.map (fun _ => (⟨none⟩ : timelineObject))) := by
  induction xs with
  | nil => rfl
  | cons x rest ih =>
    rw [List.mapM_cons, decodeTimelineObject_noVisit x (h x (by simp)),
      ih (fun y hy => h y (by simp [hy]))]
    rfl

theorem decodeWrapper_noKeys (fs : List (String × JVal))
    (h1 : ∀ kv ∈ fs, isNullIfKey "semanticSegments" kv = true)
    (h2 : ∀ kv ∈ fs, noVisitObjectsField kv = true) :
    ∃ w : timelineWrapper, decodeWrapper (.jobj fs) = .ok w ∧
      (w.SemanticSegments = none ∧ ∀ e ∈ w.TimelineObjects, e.PlaceVisit = none) := by
  simp only [decodeWrapper, foldFields]
  refine foldlM_except_inv
    (fun w : timelineWrapper =>
      w.SemanticSegments = none ∧ ∀ e ∈ w.TimelineObjects, e.PlaceVisit = none)
    _ fs ?_ (⟨[], none⟩ : timelineWrapper) ⟨rfl, by simp⟩
  intro a kv hkv hPa
  cases hv : kv.2 with
  | jnull => exact ⟨a, by simp [hv], hPa⟩
  | jarr xs =>
    by_cases hk : kv.1 = "timelineObjects"
    · have hno := h2 kv hkv
      simp only [noVisitObjectsField, hk, if_pos, hv] at hno
      refine ⟨{ a with TimelineObjects := xs.map (fun _ => ⟨none⟩) }, ?_, ?_, ?_⟩
      · simp only [hv, hk, if_pos]
        rw [show decodeList decodeTimelineObject (.jarr xs) = xs.mapM decodeTimelineObject from rfl,
          mapM_noVisit xs (List.all_eq_true.mp hno)]
        rfl
      · exact hPa.1
      · intro e he
        simp at he
        exact he.2.symm ▸ rfl
    · by_cases hk2 : kv.1 = "semanticSegments"
      · have := h1 kv hkv
        simp [isNullIfKey, hk2, hv] at this
      · exact ⟨a, by simp [hv, hk, hk2], hPa⟩
  | jbool b =>
    by_cases hk : kv.1 = "timelineObjects"
    · have hno := h2 kv hkv
      simp [noVisitObjectsField, hk, hv] at hno
    · by_cases hk2 : kv.1 = "semanticSegments"
      · have := h1 kv hkv
        simp [isNullIfKey, hk2, hv] at this
      · exact ⟨a, by simp [hv, hk, hk2], hPa⟩
  | jnum q =>
    by_cases hk : kv.1 = "timelineObjects"
    · have hno := h2 kv hkv
      simp [noVisitObjectsField, hk, hv] at hno
    · by_cases hk2 : kv.1 = "semanticSegments"
      · have := h1 kv hkv
        simp [isNullIfKey, hk2, hv] at this
      · exact ⟨a, by simp [hv, hk, hk2], hPa⟩
  | jstr s =>
    by_cases hk : kv.1 = "timelineObjects"
    · have hno := h2 kv hkv
      simp [noVisitObjectsField, hk, hv] at hno
    · by_cases hk2 : kv.1 = "semanticSegments"
      · have := h1 kv hkv
        simp [isNullIfKey, hk2, hv] at this
      · exact ⟨a, by simp [hv, hk, hk2], hPa⟩
  | jobj gs =>
    by_cases hk : kv.1 = "timelineObjects"
    · have hno := h2 kv hkv
      simp [noVisitObjectsField, hk, hv] at hno
    · by_cases hk2 : kv.1 = "semanticSegments"
      · have := h1 kv hkv
        simp [isNullIfKey, hk2, hv] at this
      · exact ⟨a, by simp [hv, hk, hk2], hPa⟩

/-- C10: a well-formed JSON object containing no non-null
`semanticSegments` key and no place-visit entry under `timelineObjects`
(in particular the empty object) decodes without error and normalizes to
the empty record sequence — the absence of both schema keys is not a
decode error. -/
theorem C10_no_schema_keys_ok (fs : List (String × JVal))
    (h1 : fs.all (isNullIfKey "semanticSegments") = true)
    (h2 : fs.all noVisitObjectsField = true) :
    ParseTimelineInput (.jobj fs) = some (.ok []) := by
  obtain ⟨w, hw, hsem, hobjs⟩ := decodeWrapper_noKeys fs
    (List.all_eq_true.mp h1) (List.all_eq_true.mp h2)
  obtain ⟨objs, sem⟩ := w
  simp only at hsem hobjs
  subst hsem
  simp only [ParseTimelineInput, hw, normalizeRecords_variantB]
  have : objs.filterMap (fun e => e.PlaceVisit.map visitRecord) = [] := by
    rw [List.filterMap_eq_nil_iff]
    intro e he
    simp [hobjs e he]
  rw [this]
  rfl

theorem C10_no_schema_keys_ok_witness :
    (([(("timelineObjects" : String),
          JVal.jarr [JVal.jobj [("activitySegment", JVal.jnull)], JVal.jnull]),
        ("other", JVal.jnum 5)] : List (String × JVal)).all
        (isNullIfKey "semanticSegments") = true) ∧
    (([(("timelineObjects" : String),
          JVal.jarr [JVal.jobj [("activitySegment", JVal.jnull)], JVal.jnull]),
        ("other", JVal.jnum 5)] : List (String × JVal)).all noVisitObjectsField = true) ∧
    ParseTimelineInput (.jobj [(("timelineObjects" : String),
          JVal.jarr [JVal.jobj [("activitySegment", JVal.jnull)], JVal.jnull]),
        ("other", JVal.jnum 5)]) = some (.ok []) :=
  ⟨by decide, by decide,
    C10_no_schema_keys_ok _ (by decide) (by decide)⟩
